import Mathlib

/-!
Shallow embedding of the "scott-hasnt-seen-radarr" scraper
(`.github/scripts/main.go`) for checking its natural-language
specification.

The HTTP transport, HTML parsing, JSON decoding and file persistence are
external collaborators (spec §1, §6); they are abstracted as oracle
functions passed in as parameters (`searchApi`, `getIMDBID`) or as the
already-extracted list of candidate strings (the text contents of the
`<i>` elements of the scraped document).  Everything downstream of those
oracles is translated from the Go source.
-/

namespace Radarr

/-- `Movie` mirrors the Go struct `Movie {Title, IMDBID, PosterURL}`. -/
structure Movie where
  title : String
  imdb_id : String
  poster_url : String
deriving DecidableEq, Repr

/-- `TMDBMovie` mirrors the Go struct `TMDBMovie` (one search result):
id, title, poster path, release date and genre ids. -/
structure TMDBMovie where
  id : Int
  title : String
  poster_path : String
  release_date : String
  genre_ids : List Int
deriving DecidableEq, Repr

/-! ### Go string primitives

Go's `len` is the UTF-8 byte length; `strings.TrimSpace` trims
`unicode.IsSpace` characters from both ends; `strings.Contains` is byte
substring search (for ASCII needles this coincides with character
substring search, which is what we embed); `strings.Fields` splits
around runs of `unicode.IsSpace`.  `strings.ToLower` is embedded as
ASCII lowercasing, which agrees with Go's Unicode lowering on all
inputs whose letters are ASCII (the only needles in the program are
ASCII). -/

/-- Go `unicode.IsSpace`: the Unicode White_Space code points plus the
Latin-1 space characters. -/
def goIsSpace (c : Char) : Bool :=
  let n := c.toNat
  (9 ≤ n && n ≤ 13) || n == 32 || n == 0x85 || n == 0xA0 || n == 0x1680 ||
  (0x2000 ≤ n && n ≤ 0x200A) || n == 0x2028 || n == 0x2029 ||
  n == 0x202F || n == 0x205F || n == 0x3000

/-- Go `strings.TrimSpace`. -/
def goTrimSpace (s : String) : String :=
  ⟨((s.data.dropWhile goIsSpace).reverse.dropWhile goIsSpace).reverse⟩

/-- Go `len` on a string: its UTF-8 byte length. -/
def goLen (s : String) : Nat :=
  (s.data.map Char.utf8Size).sum

/-- ASCII lowercasing of one character (Go `strings.ToLower` restricted
to the ASCII letters; other characters are kept as they are). -/
def goToLowerChar (c : Char) : Char :=
  if 'A' ≤ c && c ≤ 'Z' then Char.ofNat (c.toNat + 32) else c

/-- Go `strings.ToLower` (ASCII fragment). -/
def goToLower (s : String) : String :=
  ⟨s.data.map goToLowerChar⟩

/-- Does `hay` start with `needle`? -/
def startsWith : List Char → List Char → Bool
  | [], _ => true
  | _ :: _, [] => false
  | a :: as, b :: bs => a == b && startsWith as bs

/-- Does `needle` occur contiguously inside the list? -/
def containsSeq (needle : List Char) : List Char → Bool
  | [] => needle.isEmpty
  | c :: rest => startsWith needle (c :: rest) || containsSeq needle rest

/-- Go `strings.Contains hay needle` (character-level; equivalent to
Go's byte-level search for the ASCII needles the program uses). -/
def goContains (hay needle : String) : Bool :=
  containsSeq needle.data hay.data

/-- Number of fields of Go `strings.Fields`: the number of maximal runs
of non-space characters.  The boolean argument records whether the
previous character was inside a word. -/
def countFields : List Char → Bool → Nat
  | [], _ => 0
  | c :: rest, inWord =>
    if goIsSpace c then countFields rest false
    else (if inWord then 0 else 1) + countFields rest true

/-- `len(strings.Fields s)`. -/
def goNumFields (s : String) : Nat :=
  countFields s.data false

/-! ### Title extraction / filtering (`extractMovieTitles`) -/

/-- The fixed denylist `skipKeywords` of `extractMovieTitles`, verbatim
from the source. -/
def skipKeywords : List String :=
  ["cobra kai", "season", "episodes", "pilot", "watchalong",
   "awards", "the scott hasn't seenies", "march of the penguins",
   "september 5", "twin peaks", "martin", "sprague hasn't seen",
   "did", "next", "the scott hasn't seenies awards",
   "scott hasn't seen"]

/-- ASCII digit, Go regexp `\d`. -/
def isGoDigit (c : Char) : Bool :=
  '0' ≤ c && c ≤ '9'

/-- Does the list start with `part ` followed by a digit
(the `part \d+` branch of the regexp, anchored here)? -/
def partNumAt (l : List Char) : Bool :=
  startsWith "part ".data l &&
    (match l.drop 5 with
     | d :: _ => isGoDigit d
     | [] => false)

/-- Does `part ` followed by a digit occur anywhere in the list? -/
def hasPartNum : List Char → Bool
  | [] => false
  | c :: rest => partNumAt (c :: rest) || hasPartNum rest

/-- The regexp `(?i)episode|season|part \d+` of `extractMovieTitles`:
the subject matches iff its (case-folded) text contains `episode`,
`season`, or `part ` followed by a digit.  Case folding is embedded as
ASCII lowercasing, which agrees with the regexp's case-insensitive
matching on ASCII input. -/
def episodePatternMatch (title : String) : Bool :=
  let low := (goToLower title).data
  containsSeq "episode".data low || containsSeq "season".data low ||
    hasPartNum low

/-- The per-candidate rejection test of `extractMovieTitles`, applied to
the already-trimmed title: short titles (under 3 bytes), denylisted
substrings of the lowercased title, the episode/season/part regexp, and
single-word titles under 4 bytes. -/
def rejectTitle (title : String) : Bool :=
  decide (goLen title < 3) ||
  skipKeywords.any (fun kw => goContains (goToLower title) kw) ||
  episodePatternMatch title ||
  (decide (goNumFields title ≤ 1) && decide (goLen title < 4))

/-- The loop body of `extractMovieTitles` over the candidate strings
(the trimmed text of each `<i>` element).  `seen` collects every
trimmed title already encountered — the Go code marks a title as seen
before running the filters, so rejected titles are recorded too. -/
def extractLoop (seen : List String) : List String → List String
  | [] => []
  | c :: cs =>
    let title := goTrimSpace c
    if seen.contains title then extractLoop seen cs
    else if rejectTitle title then extractLoop (title :: seen) cs
    else title :: extractLoop (title :: seen) cs

/-- `extractMovieTitles`, as a function of the candidate strings
extracted from the document by the (external) HTML parser. -/
def extractMovieTitles (cands : List String) : List String :=
  extractLoop [] cands

/-! ### Metadata resolution (`searchMovieExact`, `searchMovie`)

The two TMDB endpoints are the external `SearchAPIClient` (spec §6):
`searchApi title` stands for the movie-search call and yields the
decoded result list, or an error for any transport / non-200 / decode
failure; `getIMDBID tmdbId` stands for the external-ids call of
`getIMDBID` and yields the `imdb_id` field, or an error likewise. -/

/-- The poster base URL template of `searchMovieExact`. -/
def posterBase : String :=
  "https://www.themoviedb.org/t/p/w300_and_h450_bestv2"

/-- `searchMovieExact`: take the first search result (zero results is an
error), fetch its IMDB id (propagating failure), and compose the poster
URL when a poster path is present. -/
def searchMovieExact (searchApi : String → Except String (List TMDBMovie))
    (getIMDBID : Int → Except String String) (title : String) :
    Except String Movie :=
  match searchApi title with
  | .error e => .error e
  | .ok results =>
    match results with
    | [] => .error ("no results found for " ++ title)
    | movie :: _ =>
      match getIMDBID movie.id with
      | .error e => .error ("failed to get IMDB ID for " ++ title ++ ": " ++ e)
      | .ok imdbID =>
        let posterURL := if movie.poster_path ≠ "" then posterBase ++ movie.poster_path else ""
        .ok { title := movie.title, imdb_id := imdbID, poster_url := posterURL }

/-- Go `strings.Split` with a one-character separator, over the
character list. -/
def splitChar (sep : Char) : List Char → List (List Char)
  | [] => [[]]
  | c :: rest =>
    let r := splitChar sep rest
    if c == sep then [] :: r
    else
      match r with
      | [] => [[c]]
      | h :: t => (c :: h) :: t

/-- The trimmed first `/`-segment of a title:
`strings.TrimSpace(strings.Split(title, "/")[0])`.  (`strings.Split`
always returns at least one part, so the Go guard `len(parts) > 0` is
always true.) -/
def firstSlashPart (title : String) : String :=
  goTrimSpace ⟨(splitChar '/' title.data).headD []⟩

/-- `searchMovie`: for titles containing a `/`, try the full title
first; on failure retry with the trimmed first `/`-segment when it is
non-empty; if that also fails (or the segment is empty), return the
combined not-found error.  Titles without `/` are searched directly. -/
def searchMovie (searchApi : String → Except String (List TMDBMovie))
    (getIMDBID : Int → Except String String) (title : String) :
    Except String Movie :=
  if title.data.contains '/' then
    match searchMovieExact searchApi getIMDBID title with
    | .ok movie => .ok movie
    | .error _ =>
      let firstPart := firstSlashPart title
      if firstPart ≠ "" then
        match searchMovieExact searchApi getIMDBID firstPart with
        | .ok movie => .ok movie
        | .error _ =>
          .error ("no results found for " ++ title ++ " (tried full title and first part)")
      else
        .error ("no results found for " ++ title ++ " (tried full title and first part)")
  else
    searchMovieExact searchApi getIMDBID title

/-! ### The concurrent pipeline (`generateRadarrList`)

Each title gets its own goroutine; all shared-state updates
(`radarrList`, `successful`, `failed`) happen under one mutex, so every
run's aggregate state is a left fold of the per-task update over some
interleaving order of the titles.  The theorems below quantify over the
title sequence, hence over every interleaving. -/

/-- The shared aggregation state: the result list and the two counters,
all guarded by `mu` in the source. -/
structure AggState where
  radarrList : List Movie
  successful : Nat
  failed : Nat
deriving DecidableEq, Repr

/-- The mutex-guarded update a single task performs once its
`searchMovie` call has returned: an error increments `failed`; a movie
with a non-empty IMDB id is appended and `successful` incremented; a
movie with an empty IMDB id increments `failed` and is discarded. -/
def processTitle (st : AggState) (res : Except String Movie) : AggState :=
  match res with
  | .error _ => { st with failed := st.failed + 1 }
  | .ok movie =>
    if movie.imdb_id ≠ "" then
      { st with radarrList := st.radarrList ++ [movie],
                successful := st.successful + 1 }
    else
      { st with failed := st.failed + 1 }

/-- The aggregate state after the `wg.Wait()` barrier, for the given
interleaving order of the titles. -/
def resolveAll (searchApi : String → Except String (List TMDBMovie))
    (getIMDBID : Int → Except String String) (titles : List String) :
    AggState :=
  titles.foldl (fun st t => processTitle st (searchMovie searchApi getIMDBID t))
    ⟨[], 0, 0⟩

/-! ### Go string comparison and the final sort

Go's `<` on strings is lexicographic byte comparison; since UTF-8
preserves the code-point order, it coincides with code-point
lexicographic comparison, embedded below character by character. -/

/-- Go `a < b` on strings, over the character lists: lexicographic with
a strict prefix ordered first. -/
def lexLt : List Char → List Char → Bool
  | _, [] => false
  | [], _ :: _ => true
  | a :: as, b :: bs => decide (a < b) || (a == b && lexLt as bs)

/-- Go `a < b` on strings. -/
def goStrLt (a b : String) : Bool :=
  lexLt a.data b.data

/-- Go `sort.Slice(radarrList, less = Title_i < Title_j)`: a comparison
sort over the title order, embedded as insertion sort (any comparison
sort yields a title-nondecreasing permutation; ties keep an
insertion-dependent order, as in Go's unstable slice sort, which on
already-placed tied pairs performs no swap). -/
def sortMovies (l : List Movie) : List Movie :=
  List.insertionSort (fun a b => goStrLt b.title a.title = false) l

/-- `generateRadarrList` after the barrier: the aggregated list, sorted
by title. -/
def generateRadarrList (searchApi : String → Except String (List TMDBMovie))
    (getIMDBID : Int → Except String String) (titles : List String) :
    List Movie :=
  sortMovies (resolveAll searchApi getIMDBID titles).radarrList

/-! ### Per-task event trace (rate limiting and slot release)

The body of the goroutine spawned per title, as an event trace.  The
source registers `defer wg.Done()` first and the semaphore release
second, so on exit the deferred calls run in reverse order: release,
then `wg.Done()`.  When `searchMovie` returns an error the body
executes `return` immediately after incrementing `failed`, skipping the
`time.Sleep(250ms)` at the end of the body; in the success branches
(IMDB id present or missing) the sleep runs before the function
returns. -/

/-- Observable events of one resolution task. -/
inductive TaskEvent where
  | acquireSlot
  | sleep250
  | releaseSlot
  | wgDone
deriving DecidableEq, Repr

/-- The event trace of one task, as a function of its `searchMovie`
outcome. -/
def taskTrace (res : Except String Movie) : List TaskEvent :=
  match res with
  | .error _ => [.acquireSlot, .releaseSlot, .wgDone]
  | .ok _ => [.acquireSlot, .sleep250, .releaseSlot, .wgDone]

/-! ### The admission gate (`semaphore := make(chan struct{}, 5)`)

A task acquires a slot by sending on the buffered channel (blocking
while 5 values are buffered) and releases it by receiving.  The state
is the number of slots currently held; `acquire` is only enabled below
the capacity, `release` only when a slot is held. -/

/-- Channel capacity: `make(chan struct{}, 5)`. -/
def maxConcurrent : Nat := 5

/-- One scheduler step of the admission gate. -/
inductive SemStep : Nat → Nat → Prop where
  | acquire (n : Nat) : n < maxConcurrent → SemStep n (n + 1)
  | release (n : Nat) : 0 < n → SemStep n (n - 1)

/-- States of the admission gate reachable from the initial (empty)
state. -/
inductive SemReachable : Nat → Prop where
  | init : SemReachable 0
  | step (a b : Nat) : SemReachable a → SemStep a b → SemReachable b

/-! ### Concrete oracles used by witnesses and counterexamples -/

/-- A concrete search oracle: `Ghost` and `Dune` resolve (the latter to
a result whose title differs from the query), everything else yields
the no-results error. -/
def apiDemo : String → Except String (List TMDBMovie) := fun t =>
  if t = "Ghost" then .ok [⟨7, "Ghost", "/g.jpg", "1990-07-13", [18]⟩]
  else if t = "Dune" then .ok [⟨8, "Dune: Part Two", "", "2024-03-01", [878]⟩]
  else .error "no results"

/-- A concrete external-ids oracle. -/
def idsDemo : Int → Except String String := fun i =>
  if i == 8 then .ok "tt15239678" else .ok "tt0099348"

/-- A search oracle whose only hit gets an empty IMDB id from
`idsEmpty`. -/
def apiNoID : String → Except String (List TMDBMovie) := fun t =>
  if t = "Sister Act" then .ok [⟨9, "Sister Act", "/s.jpg", "1992-05-29", [35]⟩]
  else .error "no results"

/-- An external-ids oracle returning an empty id. -/
def idsEmpty : Int → Except String String := fun _ => .ok ""

/-! ### Properties of the embedded string comparison -/

theorem lexLt_asymm : ∀ as bs : List Char,
    lexLt as bs = true → lexLt bs as = false
  | [], [] => by simp [lexLt]
  | [], _ :: _ => by simp [lexLt]
  | _ :: _, [] => by simp [lexLt]
  | a :: as, b :: bs => by
    simp only [lexLt, Bool.or_eq_true, decide_eq_true_eq, Bool.and_eq_true,
      beq_iff_eq, Bool.or_eq_false_iff, decide_eq_false_iff_not,
      Bool.and_eq_false_iff, beq_eq_false_iff_ne, ne_eq]
    rintro (hlt | ⟨rfl, h⟩)
    · exact ⟨lt_asymm hlt, .inl (ne_of_gt hlt)⟩
    · exact ⟨lt_irrefl a, .inr (lexLt_asymm as bs h)⟩

theorem lexLt_trans : ∀ as bs cs : List Char,
    lexLt as bs = true → lexLt bs cs = true → lexLt as cs = true
  | _, [], _ => by simp [lexLt]
  | _, _ :: _, [] => by simp [lexLt]
  | [], _ :: _, _ :: _ => by simp [lexLt]
  | a :: as, b :: bs, c :: cs => by
    simp only [lexLt, Bool.or_eq_true, decide_eq_true_eq, Bool.and_eq_true,
      beq_iff_eq]
    rintro (hab | ⟨rfl, hab⟩) (hbc | ⟨rfl, hbc⟩)
    · exact .inl (lt_trans hab hbc)
    · exact .inl hab
    · exact .inl hbc
    · exact .inr ⟨rfl, lexLt_trans as bs cs hab hbc⟩

theorem lexLt_connex : ∀ as bs : List Char,
    lexLt as bs = false → lexLt bs as = false → as = bs
  | [], [] => by intro _ _; rfl
  | [], _ :: _ => by intro h _; simp [lexLt] at h
  | _ :: _, [] => by intro _ h; simp [lexLt] at h
  | a :: as, b :: bs => by
    simp only [lexLt, Bool.or_eq_false_iff, decide_eq_false_iff_not,
      Bool.and_eq_false_iff, beq_eq_false_iff_ne, ne_eq, List.cons.injEq]
    rintro ⟨hab, h1⟩ ⟨hba, h2⟩
    have heq : a = b := le_antisymm (le_of_not_lt hba) (le_of_not_lt hab)
    subst heq
    rcases h1 with h1 | h1
    · exact absurd rfl h1
    rcases h2 with h2 | h2
    · exact absurd rfl h2
    exact ⟨rfl, lexLt_connex as bs h1 h2⟩

/-- The embedded comparison is the standard lexicographic strict order
on character lists. -/
theorem lexLt_iff_lex : ∀ as bs : List Char,
    lexLt as bs = true ↔ List.Lex (· < ·) as bs
  | [], [] => by
    simp only [lexLt, Bool.false_eq_true, false_iff]
    intro h; cases h
  | [], _ :: _ => by
    simp only [lexLt, true_iff]
    exact List.Lex.nil
  | _ :: _, [] => by
    simp only [lexLt, Bool.false_eq_true, false_iff]
    intro h; cases h
  | a :: as, b :: bs => by
    simp only [lexLt, Bool.or_eq_true, decide_eq_true_eq, Bool.and_eq_true,
      beq_iff_eq]
    constructor
    · rintro (hab | ⟨rfl, h⟩)
      · exact List.Lex.rel hab
      · exact List.Lex.cons ((lexLt_iff_lex as bs).mp h)
    · intro h
      cases h with
      | cons h => exact .inr ⟨rfl, (lexLt_iff_lex as bs).mpr h⟩
      | rel h => exact .inl h

/-- `goStrLt` agrees with the (code-point lexicographic) strict order
on `String`. -/
theorem goStrLt_iff_lt (a b : String) : goStrLt a b = true ↔ a < b := by
  rw [String.lt_iff_toList_lt]
  exact lexLt_iff_lex a.data b.data

/-- The non-strict form: `a ≤ b` is exactly `¬ (b < a)`, which is
`sort.Slice`'s postcondition for the `less` comparator. -/
theorem goStrLt_le_iff (a b : String) : goStrLt b a = false ↔ a ≤ b := by
  rw [show (a ≤ b) = ¬ b < a from rfl, ← goStrLt_iff_lt]
  simp

/-! ### Properties of the final sort -/

theorem sortMovies_perm (l : List Movie) : (sortMovies l).Perm l :=
  List.perm_insertionSort _ l

theorem sortMovies_sorted (l : List Movie) :
    (sortMovies l).Pairwise (fun a b => a.title ≤ b.title) := by
  haveI htot : IsTotal Movie (fun a b => goStrLt b.title a.title = false) := by
    constructor
    intro a b
    rcases Bool.eq_false_or_eq_true (goStrLt b.title a.title) with h | h
    · exact .inr (lexLt_asymm _ _ h)
    · exact .inl h
  haveI htr : IsTrans Movie (fun a b => goStrLt b.title a.title = false) := by
    constructor
    intro a b c hab hbc
    show lexLt c.title.data a.title.data = false
    replace hab : lexLt b.title.data a.title.data = false := hab
    replace hbc : lexLt c.title.data b.title.data = false := hbc
    rcases Bool.eq_false_or_eq_true (lexLt c.title.data a.title.data) with h | h
    · exfalso
      rcases Bool.eq_false_or_eq_true (lexLt a.title.data b.title.data) with hAB | hAB
      · have htr := lexLt_trans _ _ _ h hAB
        exact Bool.false_ne_true (hbc.symm.trans htr)
      · have e := lexLt_connex _ _ hAB hab
        rw [← e] at hbc
        exact Bool.false_ne_true (hbc.symm.trans h)
    · exact h
  have h := List.sorted_insertionSort (fun a b => goStrLt b.title a.title = false) l
  exact h.imp fun hab => (goStrLt_le_iff _ _).mp hab

/-- With pairwise-distinct titles the sorted output is pairwise
strictly increasing in the title. -/
theorem sortMovies_sorted_strict (l : List Movie)
    (hnd : (l.map Movie.title).Nodup) :
    (sortMovies l).Pairwise (fun a b => a.title < b.title) := by
  have hle := sortMovies_sorted l
  have hndp : ((sortMovies l).map Movie.title).Nodup :=
    (((sortMovies_perm l).map Movie.title).nodup_iff).mpr hnd
  have hne : (sortMovies l).Pairwise (fun a b => a.title ≠ b.title) :=
    List.pairwise_map.mp hndp
  exact (hle.and hne).imp fun h => lt_of_le_of_ne h.1 h.2

/-! ### Properties of the per-title aggregation update -/

theorem processTitle_counts (st : AggState) (r : Except String Movie) :
    (processTitle st r).successful + (processTitle st r).failed =
      st.successful + st.failed + 1 := by
  cases r with
  | error e => simp [processTitle]; omega
  | ok m =>
    simp only [processTitle]
    split <;> simp <;> omega

theorem processTitle_list_len (st : AggState) (r : Except String Movie) :
    (processTitle st r).radarrList.length + st.successful =
      (processTitle st r).successful + st.radarrList.length := by
  cases r with
  | error e => simp [processTitle]; omega
  | ok m =>
    simp only [processTitle]
    split <;> simp <;> omega

theorem processTitle_mem (st : AggState) (r : Except String Movie)
    (m : Movie) (h : m ∈ (processTitle st r).radarrList) :
    m ∈ st.radarrList ∨ m.imdb_id ≠ "" := by
  cases r with
  | error e => exact .inl h
  | ok mv =>
    simp only [processTitle] at h
    split at h
    · rcases List.mem_append.mp h with h' | h'
      · exact .inl h'
      · rename_i hcond
        rcases List.mem_singleton.mp h' with rfl
        exact .inr hcond
    · exact .inl h

/-- The invariant of the mutex-guarded fold: counters sum to the number
of processed titles, the list grows with `successful`, and every
appended movie has a non-empty IMDB id. -/
theorem processTitle_fold_invariant (f : String → Except String Movie)
    (titles : List String) :
    ∀ st : AggState,
      ((titles.foldl (fun s t => processTitle s (f t)) st).successful +
        (titles.foldl (fun s t => processTitle s (f t)) st).failed =
          st.successful + st.failed + titles.length) ∧
      ((titles.foldl (fun s t => processTitle s (f t)) st).radarrList.length +
        st.successful =
          (titles.foldl (fun s t => processTitle s (f t)) st).successful +
            st.radarrList.length) ∧
      (∀ m ∈ (titles.foldl (fun s t => processTitle s (f t)) st).radarrList,
        m ∈ st.radarrList ∨ m.imdb_id ≠ "") := by
  induction titles with
  | nil =>
    intro st
    exact ⟨by simp, by simp [Nat.add_comm], fun m hm => .inl hm⟩
  | cons c cs ih =>
    intro st
    simp only [List.foldl_cons, List.length_cons]
    rcases ih (processTitle st (f c)) with ⟨h1, h2, h3⟩
    refine ⟨?_, ?_, ?_⟩
    · have hc := processTitle_counts st (f c)
      omega
    · have hc := processTitle_list_len st (f c)
      omega
    · intro m hm
      rcases h3 m hm with hin | hne
      · exact processTitle_mem st (f c) m hin
      · exact .inr hne

/-! ### Properties of the title filter -/

/-- Every title in the extraction output passed the rejection test. -/
theorem rejectTitle_of_mem_extractLoop :
    ∀ (cands seen : List String) (t : String),
      t ∈ extractLoop seen cands → rejectTitle t = false := by
  intro cands
  induction cands with
  | nil => intro seen t h; simp [extractLoop] at h
  | cons c cs ih =>
    intro seen t h
    simp only [extractLoop] at h
    split at h
    · exact ih _ _ h
    · split at h
      · exact ih _ _ h
      · rcases List.mem_cons.mp h with rfl | h'
        · rename_i hcond
          exact Bool.not_eq_true _ ▸ hcond
        · exact ih _ _ h'

theorem rejectTitle_of_mem_extract (cands : List String) (t : String)
    (h : t ∈ extractMovieTitles cands) : rejectTitle t = false :=
  rejectTitle_of_mem_extractLoop cands [] t h

/-! ### The claims -/

/-- Claim C1, counterexample: when `searchMovie` fails, the task's
trace contains no 250ms pause at all — the early `return` in the error
branch skips the `time.Sleep(250ms)`, and the deferred semaphore
receive releases the slot immediately.  So the claim "each task pauses
250ms after completing its resolution work — in both the success case
and the failure case — before releasing its concurrency slot" fails in
the failure case. -/
theorem C1_counterexample :
    taskTrace (searchMovie apiDemo idsDemo "Twin Peaks") =
      [.acquireSlot, .releaseSlot, .wgDone] ∧
    TaskEvent.sleep250 ∉ taskTrace (searchMovie apiDemo idsDemo "Twin Peaks") := by
  constructor
  · rfl
  · decide

/-- Claim C1 (amended): a task pauses 250ms before releasing its
concurrency slot when its `searchMovie` call succeeds (whether or not
the IMDB id is empty); when the call fails, the task returns
immediately and releases its slot without the pause. -/
theorem C1_rate_limit_after_success (res : Except String Movie) :
    ((∃ m, res = .ok m) →
      taskTrace res = [.acquireSlot, .sleep250, .releaseSlot, .wgDone]) ∧
    ((∃ e, res = .error e) →
      taskTrace res = [.acquireSlot, .releaseSlot, .wgDone]) := by
  cases res <;> simp [taskTrace]

/-- Claim C1 witness: the success branch of the amended statement at a
concrete resolved movie. -/
theorem C1_rate_limit_after_success_witness :
    (∃ m, (Except.ok (⟨"Ghost", "tt0099348", ""⟩ : Movie) : Except String Movie) = .ok m) ∧
    taskTrace (.ok ⟨"Ghost", "tt0099348", ""⟩) =
      [.acquireSlot, .sleep250, .releaseSlot, .wgDone] :=
  ⟨⟨_, rfl⟩, (C1_rate_limit_after_success (.ok ⟨"Ghost", "tt0099348", ""⟩)).1 ⟨_, rfl⟩⟩

/-- Claim C2: every entry of the final aggregated (and sorted) output
has a non-empty IMDB id, and a successful search whose IMDB-id lookup
yields the empty string contributes no entry and is counted as a
failure. -/
theorem C2_nonempty_imdb (searchApi : String → Except String (List TMDBMovie))
    (getIMDBID : Int → Except String String) (titles : List String) :
    (∀ m ∈ generateRadarrList searchApi getIMDBID titles, m.imdb_id ≠ "") ∧
    (∀ (st : AggState) (m : Movie), m.imdb_id = "" →
      processTitle st (.ok m) = { st with failed := st.failed + 1 }) := by
  constructor
  · intro m hm
    have hm' : m ∈ (resolveAll searchApi getIMDBID titles).radarrList :=
      (sortMovies_perm _).mem_iff.mp hm
    have h := (processTitle_fold_invariant (searchMovie searchApi getIMDBID)
      titles ⟨[], 0, 0⟩).2.2 m hm'
    rcases h with h | h
    · simp at h
    · exact h
  · intro st m hempty
    simp [processTitle, hempty]

/-- Claim C2 witness: a concretely resolved movie in the final output
has a non-empty IMDB id; and the empty-IMDB-id update at a concrete
state only increments `failed`. -/
theorem C2_nonempty_imdb_witness :
    (Movie.mk "Ghost" "tt0099348"
        "https://www.themoviedb.org/t/p/w300_and_h450_bestv2/g.jpg").imdb_id ≠ "" ∧
    processTitle ⟨[], 0, 0⟩ (.ok ⟨"Sister Act", "", ""⟩) = ⟨[], 0, 1⟩ :=
  ⟨(C2_nonempty_imdb apiDemo idsDemo ["Ghost"]).1 _ (by decide),
   (C2_nonempty_imdb apiDemo idsDemo ["Ghost"]).2 ⟨[], 0, 0⟩ ⟨"Sister Act", "", ""⟩ rfl⟩

/-- Claim C3: for a title containing `/`, `searchMovie` first attempts
the full-string exact search (returning its result when it succeeds);
if the full-string attempt fails and the trimmed first `/`-segment is
non-empty and its search succeeds, the result of the first segment is
returned; if the full-string attempt fails and the fallback fails too
(or the segment is empty), the combined not-found error is reported. -/
theorem C3_slash_fallback (searchApi : String → Except String (List TMDBMovie))
    (getIMDBID : Int → Except String String) (title : String)
    (hslash : title.data.contains '/' = true) :
    (∀ m, searchMovieExact searchApi getIMDBID title = .ok m →
      searchMovie searchApi getIMDBID title = .ok m) ∧
    (∀ e m, searchMovieExact searchApi getIMDBID title = .error e →
      firstSlashPart title ≠ "" →
      searchMovieExact searchApi getIMDBID (firstSlashPart title) = .ok m →
      searchMovie searchApi getIMDBID title = .ok m) ∧
    (∀ e, searchMovieExact searchApi getIMDBID title = .error e →
      (firstSlashPart title = "" ∨
        ∃ e', searchMovieExact searchApi getIMDBID (firstSlashPart title) = .error e') →
      searchMovie searchApi getIMDBID title =
        .error ("no results found for " ++ title ++ " (tried full title and first part)")) := by
  have hin : '/' ∈ title.data := by simpa using hslash
  refine ⟨?_, ?_, ?_⟩
  · intro m hm
    simp [searchMovie, hin, hm]
  · intro e m he hfp hm
    simp [searchMovie, hin, he, hfp, hm]
  · intro e he hfail
    rcases hfail with hfp | ⟨e', he'⟩
    · simp [searchMovie, hin, he, hfp]
    · by_cases hfp : firstSlashPart title = ""
      · simp [searchMovie, hin, he, hfp]
      · simp [searchMovie, hin, he, hfp, he']

/-- Claim C3 witness: `Ghost/Dune` fails as a full title against the
concrete oracle; the trimmed first segment `Ghost` succeeds, and
`searchMovie` returns the `Ghost` result. -/
theorem C3_slash_fallback_witness :
    searchMovie apiDemo idsDemo "Ghost/Dune" =
      .ok ⟨"Ghost", "tt0099348",
        "https://www.themoviedb.org/t/p/w300_and_h450_bestv2/g.jpg"⟩ :=
  (C3_slash_fallback apiDemo idsDemo "Ghost/Dune" (by decide)).2.1
    "no results" _ rfl (by decide) rfl

/-- Claim C4: every reachable state of the admission gate holds at most
5 slots; `acquire` is only enabled below the bound, so additional tasks
wait for a release. -/
theorem C4_bounded_concurrency (n : Nat) (h : SemReachable n) : n ≤ 5 := by
  induction h with
  | init => exact Nat.zero_le _
  | step a b _ hstep ih =>
    cases hstep with
    | acquire hlt =>
      have h5 : a < 5 := hlt
      omega
    | release hpos => omega

/-- Claim C4 witness: the gate state after one acquisition is reachable
and within the bound. -/
theorem C4_bounded_concurrency_witness : SemReachable 1 ∧ 1 ≤ 5 :=
  have h1 : SemReachable 1 := .step 0 1 .init (.acquire 0 (by decide))
  ⟨h1, C4_bounded_concurrency 1 h1⟩

/-- Claim C5: the sort outputs the same entries (a permutation),
nondecreasing in the title under the code-point/byte lexicographic
order; on the concrete titles Movie C, Movie A, Movie B it yields
exactly Movie A, Movie B, Movie C. -/
theorem C5_sorted_output :
    (∀ l : List Movie, (sortMovies l).Perm l ∧
      (sortMovies l).Pairwise (fun a b => a.title ≤ b.title)) ∧
    sortMovies [⟨"Movie C", "tt3", ""⟩, ⟨"Movie A", "tt1", ""⟩, ⟨"Movie B", "tt2", ""⟩] =
      [⟨"Movie A", "tt1", ""⟩, ⟨"Movie B", "tt2", ""⟩, ⟨"Movie C", "tt3", ""⟩] :=
  ⟨fun l => ⟨sortMovies_perm l, sortMovies_sorted l⟩, by decide⟩

/-- Claim C6, counterexample: two result sets with the same entries in
different insertion orders, where two distinct entries share the title
`Movie A`, sort to different output sequences — the comparison only
inspects titles, so the order of tied entries depends on insertion
order (Go's `sort.Slice` is unstable and compares only titles, so it
cannot reorder a tied pair deterministically across insertion orders
either). -/
theorem C6_counterexample :
    ([⟨"Movie A", "tt1", ""⟩, ⟨"Movie A", "tt2", ""⟩] : List Movie).Perm
      [⟨"Movie A", "tt2", ""⟩, ⟨"Movie A", "tt1", ""⟩] ∧
    sortMovies [⟨"Movie A", "tt1", ""⟩, ⟨"Movie A", "tt2", ""⟩] ≠
      sortMovies [⟨"Movie A", "tt2", ""⟩, ⟨"Movie A", "tt1", ""⟩] := by
  constructor
  · exact List.Perm.swap _ _ _
  · decide

/-- Claim C6 (amended): the sort is deterministic with respect to the
multiset of entries provided no two distinct entries share a title: two
result sets that are permutations of each other with pairwise-distinct
titles sort to the same output sequence. -/
theorem C6_deterministic_sort (l₁ l₂ : List Movie) (hp : l₁.Perm l₂)
    (hnd : (l₁.map Movie.title).Nodup) : sortMovies l₁ = sortMovies l₂ := by
  haveI : IsAntisymm Movie (fun a b => a.title < b.title) :=
    ⟨fun a b h h' => absurd (lt_trans h h') (lt_irrefl _)⟩
  refine List.eq_of_perm_of_sorted (r := fun a b => a.title < b.title)
    (((sortMovies_perm l₁).trans hp).trans (sortMovies_perm l₂).symm) ?_ ?_
  · exact sortMovies_sorted_strict l₁ hnd
  · refine sortMovies_sorted_strict l₂ ?_
    exact ((hp.map Movie.title).nodup_iff).mp hnd

/-- Claim C6 witness: two concrete permutations with distinct titles
sort identically. -/
theorem C6_deterministic_sort_witness :
    ([⟨"Movie B", "tt2", ""⟩, ⟨"Movie A", "tt1", ""⟩] : List Movie).Perm
      [⟨"Movie A", "tt1", ""⟩, ⟨"Movie B", "tt2", ""⟩] ∧
    sortMovies [⟨"Movie B", "tt2", ""⟩, ⟨"Movie A", "tt1", ""⟩] =
      sortMovies [⟨"Movie A", "tt1", ""⟩, ⟨"Movie B", "tt2", ""⟩] :=
  ⟨List.Perm.swap _ _ _,
   C6_deterministic_sort _ _ (List.Perm.swap _ _ _) (by decide)⟩

/-- Claim C7, counterexample: the code rejects short titles by `len`,
which is the byte length, not the character count.  The 2-character
string `éé` has 4 UTF-8 bytes, so it passes the length filters and
appears in the extraction output, yet its trimmed form is shorter than
3 characters. -/
theorem C7_counterexample :
    (goTrimSpace "éé").length < 3 ∧
    goTrimSpace "éé" ∈ extractMovieTitles ["éé"] := by
  constructor
  · decide
  · decide

/-- Claim C7 (amended): every candidate whose trimmed form is shorter
than 3 bytes (Go's `len`, the UTF-8 byte length — not characters) is
excluded from the extraction output. -/
theorem C7_short_title_filter (cands : List String) (c : String)
    (hmem : c ∈ cands) (hshort : goLen (goTrimSpace c) < 3) :
    goTrimSpace c ∉ extractMovieTitles cands := by
  intro hout
  have hrej := rejectTitle_of_mem_extract cands _ hout
  simp only [rejectTitle, Bool.or_eq_false_iff, decide_eq_false_iff_not] at hrej
  exact hrej.1.1.1 hshort

/-- Claim C7 witness: the two-byte candidate `ab` is excluded. -/
theorem C7_short_title_filter_witness :
    ("ab" ∈ ["ab", "Dune"]) ∧ goLen (goTrimSpace "ab") < 3 ∧
    goTrimSpace "ab" ∉ extractMovieTitles ["ab", "Dune"] :=
  ⟨by decide, by decide, C7_short_title_filter _ _ (by decide) (by decide)⟩

/-- Claim C8: any candidate whose trimmed form matches the
case-insensitive episode/season/part-number pattern is excluded from
the extraction output. -/
theorem C8_episode_pattern_filter (cands : List String) (c : String)
    (hmem : c ∈ cands) (hmatch : episodePatternMatch (goTrimSpace c) = true) :
    goTrimSpace c ∉ extractMovieTitles cands := by
  intro hout
  have hrej := rejectTitle_of_mem_extract cands _ hout
  simp only [rejectTitle, Bool.or_eq_false_iff] at hrej
  exact Bool.noConfusion (hmatch.symm.trans hrej.1.2)

/-- Claim C8 witness: `Cobra Kai Season 5` is excluded. -/
theorem C8_episode_pattern_filter_witness :
    ("Cobra Kai Season 5" ∈ ["Cobra Kai Season 5", "Dune"]) ∧
    episodePatternMatch (goTrimSpace "Cobra Kai Season 5") = true ∧
    goTrimSpace "Cobra Kai Season 5" ∉ extractMovieTitles ["Cobra Kai Season 5", "Dune"] :=
  ⟨by decide, by decide, C8_episode_pattern_filter _ _ (by decide) (by decide)⟩

/-- Claim C9: after the join, `successful + failed` equals the number
of input titles, and the aggregated list holds exactly `successful`
entries — for every search oracle and every interleaving order. -/
theorem C9_counter_invariant (searchApi : String → Except String (List TMDBMovie))
    (getIMDBID : Int → Except String String) (titles : List String) :
    (resolveAll searchApi getIMDBID titles).successful +
      (resolveAll searchApi getIMDBID titles).failed = titles.length ∧
    (resolveAll searchApi getIMDBID titles).radarrList.length =
      (resolveAll searchApi getIMDBID titles).successful := by
  have h := processTitle_fold_invariant (searchMovie searchApi getIMDBID)
    titles ⟨[], 0, 0⟩
  rcases h with ⟨h1, h2, _⟩
  constructor
  · simpa using h1
  · simpa using h2

/-- Claim C10: on a successful exact search the returned entry carries
the title of the first search result, not the queried title; and the
two can differ, so the final output can contain a title that never
occurred in the scraped document (concretely, querying `Dune` against
the demo oracle puts `Dune: Part Two` in the output). -/
theorem C10_first_result_title :
    (∀ (searchApi : String → Except String (List TMDBMovie))
       (getIMDBID : Int → Except String String)
       (title : String) (r : TMDBMovie) (rest : List TMDBMovie) (i : String),
      searchApi title = .ok (r :: rest) → getIMDBID r.id = .ok i →
      ∃ m, searchMovieExact searchApi getIMDBID title = .ok m ∧ m.title = r.title) ∧
    (generateRadarrList apiDemo idsDemo ["Dune"] =
        [⟨"Dune: Part Two", "tt15239678", ""⟩] ∧
      ("Dune: Part Two" : String) ≠ "Dune") := by
  refine ⟨?_, by decide, by decide⟩
  intro searchApi getIMDBID title r rest i hs hi
  refine ⟨{ title := r.title, imdb_id := i,
            poster_url := if r.poster_path ≠ "" then posterBase ++ r.poster_path else "" },
          ?_, rfl⟩
  simp [searchMovieExact, hs, hi]

/-- Claim C10 witness: the general part applied to the concrete oracle
at `Ghost`. -/
theorem C10_first_result_title_witness :
    ∃ m, searchMovieExact apiDemo idsDemo "Ghost" = .ok m ∧
      m.title = (TMDBMovie.mk 7 "Ghost" "/g.jpg" "1990-07-13" [18]).title :=
  C10_first_result_title.1 apiDemo idsDemo "Ghost"
    ⟨7, "Ghost", "/g.jpg", "1990-07-13", [18]⟩ [] "tt0099348" rfl rfl

end Radarr
